import Mathlib

/-!
Verification of the pre-commit orchestration engine of the wpcs-mcp-server
repository (src/src/utils.ts, PhpcsRunner; src/src/server.ts,
WpcsMcpServer.preCommitWorkflow) against its natural-language specification.

The TypeScript code drives two external tools (`phpcs`, `phpcbf`) through
`execSync`.  The embedding models each external invocation's observable
outcome as an explicit environment value (exit status and captured stdout,
already classified the way the catch-blocks of the source observe them), and
translates the TypeScript control flow over those outcomes verbatim.
-/

namespace Wpcs

/-- Message type of one phpcs finding (src/types.ts `PhpcsMessage.type`). -/
inductive MsgType where
  | ERROR
  | WARNING
deriving DecidableEq, Repr

/-- One phpcs finding (src/types.ts `PhpcsMessage`). -/
structure PhpcsMessage where
  message : String
  source : String
  severity : Nat
  fixable : Bool
  type : MsgType
  line : Nat
  column : Nat
deriving DecidableEq, Repr

/-- Per-file block of the phpcs JSON report (src/types.ts `PhpcsFileResult`). -/
structure PhpcsFileResult where
  errors : Nat
  warnings : Nat
  messages : List PhpcsMessage
deriving DecidableEq, Repr

/-- The `totals` block of the phpcs JSON report (src/types.ts `PhpcsResult.totals`). -/
structure PhpcsTotals where
  errors : Nat
  warnings : Nat
  fixable : Nat
deriving DecidableEq, Repr

/-- A parsed phpcs JSON report (src/types.ts `PhpcsResult`).  `files` is an
association list in the order `Object.entries` enumerates it. -/
structure PhpcsResult where
  totals : PhpcsTotals
  files : List (String × PhpcsFileResult)
deriving DecidableEq, Repr

/-- One entry of `WpcsCheckResult.files` (src/types.ts). -/
structure WpcsFileEntry where
  path : String
  errors : Nat
  warnings : Nat
  messages : List PhpcsMessage
deriving DecidableEq, Repr

/-- Result shape of `PhpcsRunner.check` / `checkFiles` (src/types.ts `WpcsCheckResult`). -/
structure WpcsCheckResult where
  success : Bool
  canCommit : Bool
  totalErrors : Nat
  totalWarnings : Nat
  fixableCount : Nat
  files : List WpcsFileEntry
  summary : String
deriving DecidableEq, Repr

/-- Result shape of `PhpcsRunner.fix` (src/types.ts `WpcsFixResult`). -/
structure WpcsFixResult where
  success : Bool
  fixed : Bool
  file : String
  diff : Option String
  remainingIssues : Option WpcsCheckResult
deriving DecidableEq, Repr

/-- A staged file entry (src/types.ts `StagedFile`). -/
structure StagedFile where
  status : String
  path : String
deriving DecidableEq, Repr

/-- Observable outcome of one `execSync phpcs --report=json ...` call, classified
exactly as the source's catch-blocks observe it: exit 0; or non-zero exit with
stdout that `JSON.parse` accepts; or non-zero exit with empty stdout (payload is
`execError.message`); or non-zero exit with non-empty stdout that `JSON.parse`
rejects (payload is the parse exception's message). -/
inductive PhpcsExec where
  | clean
  | report (r : PhpcsResult)
  | noOutput (msg : String)
  | badOutput (msg : String)
deriving DecidableEq, Repr

/-- Observable outcome of one `execSync phpcbf ...` call: exit 0, or a thrown
exec error carrying an optional `status` exit code (src lines 533-542 inspect
only `status === 2`). -/
inductive CbfExec where
  | ok
  | err (status : Option Nat) (msg : String)
deriving DecidableEq, Repr

/-- Whether the phpcbf catch-block re-throws: only on `execError.status === 2`
(src/src/utils.ts lines 537-541); every other failure is swallowed. -/
def cbfFails : CbfExec → Bool
  | CbfExec.err (some 2) _ => true
  | _ => false

/-- Environment seen by one `PhpcsRunner.fix` invocation: the phpcs outcome of
the pre-check, the phpcbf outcome, the phpcs outcome of the post-check, and —
as a ghost record of the file system that the implementation itself never
reads — the file's on-disk content before and after the phpcbf step. -/
structure FixEnv where
  before : PhpcsExec
  cbf : CbfExec
  after : PhpcsExec
  contentBefore : String
  contentAfter : String

/-- Environment of one `PhpcsRunner.fixAndCheck` run: the environment of the
i-th `fix` invocation of the loop, and the phpcs outcome of the final batch
`checkFiles` call. -/
structure RunEnv where
  fenv : Nat → FixEnv
  batch : PhpcsExec

/-- `PhpcsRunner.formatSummary` (src/src/utils.ts lines 671-695). -/
def formatSummary (totals : PhpcsTotals) (fileCount : Nat) : String :=
  let parts : List String :=
    (if totals.errors > 0 then [toString totals.errors ++ " error(s)"] else [])
      ++ (if totals.warnings > 0 then [toString totals.warnings ++ " warning(s)"] else [])
  let s1 := "Found " ++ (String.intercalate " and " parts
      ++ (" in " ++ (toString fileCount ++ " file(s).")))
  let s2 := if totals.fixable > 0 then
      s1 ++ (" " ++ (toString totals.fixable ++ " can be auto-fixed with phpcbf."))
    else s1
  if totals.errors > 0 then
    s2 ++ " COMMIT BLOCKED - fix errors before committing."
  else s2

/-- `PhpcsRunner.check` (src/src/utils.ts lines 449-509).  The outer try/catch
converts both exec-without-output and JSON.parse failures into the synthetic
"Error running phpcs" result, so `check` never throws. -/
def check (x : PhpcsExec) : WpcsCheckResult :=
  match x with
  | PhpcsExec.clean =>
      { success := true, canCommit := true, totalErrors := 0, totalWarnings := 0,
        fixableCount := 0, files := [],
        summary := "No coding standard violations found." }
  | PhpcsExec.report r =>
      let files := r.files.map fun pd =>
        { path := pd.1, errors := pd.2.errors, warnings := pd.2.warnings,
          messages := pd.2.messages }
      { success := false, canCommit := r.totals.errors == 0,
        totalErrors := r.totals.errors, totalWarnings := r.totals.warnings,
        fixableCount := r.totals.fixable, files := files,
        summary := formatSummary r.totals files.length }
  | PhpcsExec.noOutput m =>
      { success := false, canCommit := false, totalErrors := 1, totalWarnings := 0,
        fixableCount := 0, files := [],
        summary := "Error running phpcs: " ++ ("phpcs failed: " ++ m) }
  | PhpcsExec.badOutput m =>
      { success := false, canCommit := false, totalErrors := 1, totalWarnings := 0,
        fixableCount := 0, files := [],
        summary := "Error running phpcs: " ++ m }

/-- `PhpcsRunner.checkFiles` (src/src/utils.ts lines 567-632).  There is no
surrounding try/catch, so a `JSON.parse` failure on non-empty stdout escapes to
the caller: that branch is `Except.error`. -/
def checkFiles (x : PhpcsExec) (files : List String) : Except String WpcsCheckResult :=
  if files.length = 0 then
    Except.ok
      { success := true, canCommit := true, totalErrors := 0, totalWarnings := 0,
        fixableCount := 0, files := [], summary := "No PHP files to check." }
  else
    match x with
    | PhpcsExec.clean =>
        Except.ok
          { success := true, canCommit := true, totalErrors := 0, totalWarnings := 0,
            fixableCount := 0, files := [],
            summary := "All " ++ (toString files.length
              ++ " PHP file(s) pass WordPress coding standards.") }
    | PhpcsExec.report r =>
        let resultFiles := r.files.map fun pd =>
          { path := pd.1, errors := pd.2.errors, warnings := pd.2.warnings,
            messages := pd.2.messages }
        Except.ok
          { success := false, canCommit := r.totals.errors == 0,
            totalErrors := r.totals.errors, totalWarnings := r.totals.warnings,
            fixableCount := r.totals.fixable, files := resultFiles,
            summary := formatSummary r.totals resultFiles.length }
    | PhpcsExec.noOutput m =>
        Except.ok
          { success := false, canCommit := false, totalErrors := 1, totalWarnings := 0,
            fixableCount := 0, files := [],
            summary := "phpcs failed: " ++ m }
    | PhpcsExec.badOutput m => Except.error m

/-- `PhpcsRunner.fix` (src/src/utils.ts lines 514-562).  The pre-check result
decides the early return; only a phpcbf exec error with `status === 2` reaches
the outer catch; every other phpcbf outcome falls through to the post-check and
the unconditional `fixed: true` result.  The file content recorded in the
environment is never consulted. -/
def fix (env : FixEnv) (filePath : String) : WpcsFixResult :=
  let beforeCheck := check env.before
  if beforeCheck.success then
    { success := true, fixed := false, file := filePath, diff := none,
      remainingIssues := some beforeCheck }
  else
    match env.cbf with
    | CbfExec.err (some 2) m =>
        { success := false, fixed := false, file := filePath,
          diff := some ("Error: " ++ ("phpcbf failed: " ++ m)),
          remainingIssues := none }
    | _ =>
        { success := true, fixed := true, file := filePath, diff := none,
          remainingIssues := some (check env.after) }

/-- The `for (const file of files)` loop of `fixAndCheck` (src/src/utils.ts
lines 647-653): collect, in order, every file whose `fix` result has
`fixed = true`; the i-th iteration consumes the i-th fix environment. -/
def fixPass (fenv : Nat → FixEnv) : List String → List String
  | [] => []
  | f :: rest =>
      if (fix (fenv 0) f).fixed then f :: fixPass (fun j => fenv (j + 1)) rest
      else fixPass (fun j => fenv (j + 1)) rest

/-- `fixedFiles.map(f => "${f}").join(' ')` quoting of the re-stage command. -/
def quoteJoin (files : List String) : String :=
  String.intercalate " " (files.map fun f => "\"" ++ f ++ "\"")

/-- Return shape of `PhpcsRunner.fixAndCheck`. -/
structure FixAndCheckOutcome where
  checkResult : WpcsCheckResult
  fixedFiles : List String
  reStageCommand : Option String
deriving DecidableEq, Repr

/-- `PhpcsRunner.fixAndCheck` (src/src/utils.ts lines 637-669): run the fix
loop over every file, then one `checkFiles` call on the whole original list,
then derive the re-stage command from `fixedFiles`.  A `checkFiles` throw
propagates. -/
def fixAndCheck (env : RunEnv) (files : List String) : Except String FixAndCheckOutcome :=
  let fixedFiles := fixPass env.fenv files
  match checkFiles env.batch files with
  | Except.error e => Except.error e
  | Except.ok checkResult =>
      Except.ok
        { checkResult := checkResult, fixedFiles := fixedFiles,
          reStageCommand :=
            if fixedFiles.length > 0 then
              some ("git add " ++ quoteJoin fixedFiles)
            else none }

/-- `formatPath` (src/src/utils.ts lines 232-237). -/
def formatPath (filePath : String) (workingDir : Option String) : String :=
  match workingDir with
  | some wd =>
      if filePath.startsWith wd then filePath.drop (wd.length + 1) else filePath
  | none => filePath

/-- Result of `checkPhpcsInstalled` / `checkWpcsInstalled` as consumed by
`preCommitWorkflow` (only the `installed` flag and the error message). -/
structure InstallCheck where
  installed : Bool
  errMsg : String

/-- Environment of one `preCommitWorkflow` run: prerequisite-check outcomes,
the staged PHP files reported by `getStagedPhpFiles`, the runner environment
for `fixAndCheck`, and whether the `execSync(reStageCommand)` call succeeds. -/
structure ServerEnv where
  phpcs : InstallCheck
  wpcs : InstallCheck
  staged : List StagedFile
  run : RunEnv
  restageOk : Bool

/-- MCP tool result as the server builds it: the text content and the
`isError` flag. -/
structure CallToolResult where
  text : String
  isError : Bool
deriving DecidableEq, Repr

/-- `WpcsMcpServer.errorResult` (src/src/server.ts lines 377-382). -/
def errorResult (message : String) : CallToolResult :=
  { text := "Error: " ++ message, isError := true }

/-- `WpcsMcpServer.successResult` (src/src/server.ts lines 371-375): no
`isError` field is set, so the result is not an error. -/
def successResult (message : String) : CallToolResult :=
  { text := message, isError := false }

/-- The `AUTO-FIXED` file list lines (src/src/server.ts lines 204-206). -/
def fixedListText (files : List String) (wd : Option String) : String :=
  String.join (files.map fun f => "  - " ++ (formatPath f wd ++ "\n"))

/-- The re-stage portion of the pre-commit message (src/src/server.ts lines
209-220): attempted only when `autoStage` holds and a command exists; failure
of the `execSync` call downgrades to a `Warning:` line. -/
def restageText (autoStage : Bool) (cmd : Option String) (restageOk : Bool) : String :=
  match cmd with
  | some c =>
      if autoStage then
        if restageOk then "Fixed files have been re-staged.\n\n"
        else "Warning: Could not re-stage files. Run manually:\n  " ++ (c ++ "\n\n")
      else "Re-stage fixed files with:\n  " ++ (c ++ "\n\n")
  | none => ""

/-- The fixed-files block of the pre-commit message (src/src/server.ts lines
202-221), empty when nothing was fixed. -/
def messageFixed (out : FixAndCheckOutcome) (wd : Option String)
    (autoStage restageOk : Bool) : String :=
  if out.fixedFiles.length > 0 then
    "AUTO-FIXED " ++ (toString out.fixedFiles.length ++ (" file(s):\n"
      ++ (fixedListText out.fixedFiles wd ++ ("\n"
      ++ restageText autoStage out.reStageCommand restageOk))))
  else ""

/-- One `Line N: [ERROR|WARNING] ...` line of the blocked report
(src/src/server.ts lines 235-239). -/
def violationLine (msg : PhpcsMessage) : String :=
  "  Line " ++ (toString msg.line ++ (": "
    ++ ((if msg.type = MsgType.ERROR then "[ERROR]" else "[WARNING]")
    ++ (" " ++ (msg.message ++ ((if msg.fixable then " (fixable)" else "") ++ "\n"))))))

/-- One per-file block of the blocked report (src/src/server.ts lines 233-240). -/
def fileBlock (wd : Option String) (file : WpcsFileEntry) : String :=
  "\n" ++ (formatPath file.path wd ++ (" (" ++ (toString file.errors ++ (" errors, "
    ++ (toString file.warnings ++ (" warnings):\n"
    ++ String.join (file.messages.map violationLine)))))))

/-- The final PASSED/BLOCKED portion of the pre-commit message
(src/src/server.ts lines 224-243). -/
def messageStatus (cr : WpcsCheckResult) (wd : Option String) : String :=
  if cr.canCommit then
    "PRE-COMMIT: PASSED\n\n" ++ (cr.summary ++ "\n\nCommit can proceed.")
  else
    "PRE-COMMIT: BLOCKED\n\n" ++ (cr.summary ++ ("\n\nRemaining issues:\n"
      ++ (String.join (cr.files.map (fileBlock wd))
      ++ "\n\nFix errors before committing.")))

/-- `WpcsMcpServer.preCommitWorkflow` (src/src/server.ts lines 167-254).  A
rejection of the `fixAndCheck` promise propagates (`Except.error`); otherwise
the outcome text is the fixed-files block followed by the status block, and
`isError` is exactly `!checkResult.canCommit`. -/
def preCommitWorkflow (env : ServerEnv) (wd : Option String) (autoStage : Bool) :
    Except String CallToolResult :=
  if !env.phpcs.installed then Except.ok (errorResult env.phpcs.errMsg)
  else if !env.wpcs.installed then Except.ok (errorResult env.wpcs.errMsg)
  else if env.staged.length = 0 then
    Except.ok (successResult
      "PRE-COMMIT: PASSED\n\nNo staged PHP files to check. Commit can proceed.")
  else
    match fixAndCheck env.run (env.staged.map fun sf => sf.path) with
    | Except.error e => Except.error e
    | Except.ok out =>
        Except.ok
          { text := messageFixed out wd autoStage env.restageOk
              ++ messageStatus out.checkResult wd,
            isError := !out.checkResult.canCommit }

/-- The CallToolRequest handler's catch-block (src/src/server.ts lines 95-98):
an exception escaping a tool implementation becomes an error result. -/
def callPreCommit (env : ServerEnv) (wd : Option String) (autoStage : Bool) :
    CallToolResult :=
  match preCommitWorkflow env wd autoStage with
  | Except.ok r => r
  | Except.error e => errorResult ("Tool execution failed: " ++ e)

/-! Concrete environments used to evaluate the definitions on explicit inputs:
a file carrying a single non-fixable ERROR finding, for which `phpcbf` exits 0
(it applies no fix and leaves the content untouched), and variations. -/

/-- A single non-fixable ERROR finding. -/
def unfixableMessage : PhpcsMessage :=
  { message := "Missing doc comment", source := "Squiz.Commenting.FunctionComment.Missing",
    severity := 5, fixable := false, type := MsgType.ERROR, line := 3, column := 1 }

/-- A phpcs report with one non-fixable error in one file. -/
def unfixableReport : PhpcsResult :=
  { totals := { errors := 1, warnings := 0, fixable := 0 },
    files := [("c.php", { errors := 1, warnings := 0, messages := [unfixableMessage] })] }

/-- Fix environment of a file with one non-fixable error: phpcbf exits 0 and
the on-disk content is identical before and after the fixer step. -/
def unchangedFixEnv : FixEnv :=
  { before := PhpcsExec.report unfixableReport, cbf := CbfExec.ok,
    after := PhpcsExec.report unfixableReport,
    contentBefore := "<?php f();", contentAfter := "<?php f();" }

/-- Fix environment in which the phpcbf invocation itself fails (exit 2). -/
def failingFixEnv : FixEnv :=
  { before := PhpcsExec.report unfixableReport,
    cbf := CbfExec.err (some 2) "phpcbf crashed",
    after := PhpcsExec.report unfixableReport,
    contentBefore := "<?php f();", contentAfter := "<?php f();" }

/-- Runner environment in which every fix invocation sees `unchangedFixEnv`
and the final batch check reports the same non-fixable error. -/
def unchangedRunEnv : RunEnv :=
  { fenv := fun _ => unchangedFixEnv, batch := PhpcsExec.report unfixableReport }

/-- Runner environment whose first fix invocation fails (phpcbf exit 2) while
later ones succeed, and whose final batch check is clean. -/
def mixedRunEnv : RunEnv :=
  { fenv := fun i => if i = 0 then failingFixEnv else unchangedFixEnv,
    batch := PhpcsExec.clean }

/-- The check result parsed from `unfixableReport`. -/
def blockedCheckResult : WpcsCheckResult :=
  { success := false, canCommit := false, totalErrors := 1, totalWarnings := 0,
    fixableCount := 0,
    files := [{ path := "c.php", errors := 1, warnings := 0,
                messages := [unfixableMessage] }],
    summary := "Found 1 error(s) in 1 file(s). COMMIT BLOCKED - fix errors before committing." }

/-- Value of `fixAndCheck unchangedRunEnv ["a.php", "a.php"]`. -/
def dupOut : FixAndCheckOutcome :=
  { checkResult := blockedCheckResult, fixedFiles := ["a.php", "a.php"],
    reStageCommand := some "git add \"a.php\" \"a.php\"" }

/-- Value of `fixAndCheck unchangedRunEnv ["c.php"]`. -/
def singleOut : FixAndCheckOutcome :=
  { checkResult := blockedCheckResult, fixedFiles := ["c.php"],
    reStageCommand := some "git add \"c.php\"" }

/-- Value of `fixAndCheck unchangedRunEnv ["a.php"]`. -/
def aOut : FixAndCheckOutcome :=
  { checkResult := blockedCheckResult, fixedFiles := ["a.php"],
    reStageCommand := some "git add \"a.php\"" }

/-- Value of `fixAndCheck mixedRunEnv ["b.php", "d.php"]`. -/
def mixedOut : FixAndCheckOutcome :=
  { checkResult :=
      { success := true, canCommit := true, totalErrors := 0, totalWarnings := 0,
        fixableCount := 0, files := [],
        summary := "All 2 PHP file(s) pass WordPress coding standards." },
    fixedFiles := ["d.php"],
    reStageCommand := some "git add \"d.php\"" }

/-- A prerequisite check that reports the tool installed. -/
def okInstall : InstallCheck := { installed := true, errMsg := "" }

/-- Server environment whose verify-pass phpcs invocation fails without
producing any stdout. -/
def noOutputServerEnv : ServerEnv :=
  { phpcs := okInstall, wpcs := okInstall,
    staged := [{ status := "M", path := "a.php" }],
    run := { fenv := fun _ => unchangedFixEnv, batch := PhpcsExec.noOutput "boom" },
    restageOk := true }

/-- Server environment with one staged file carrying a non-fixable error. -/
def stagedServerEnv : ServerEnv :=
  { phpcs := okInstall, wpcs := okInstall,
    staged := [{ status := "M", path := "a.php" }],
    run := unchangedRunEnv, restageOk := true }

end Wpcs

/-! Helper lemmas shared by the claim theorems: first-character facts used to
separate the synthetic invocation-failure results from every result built from
analyzer output, shape lemmas for `fix`, and characterizations of `fixPass`
and `fixAndCheck`. -/

namespace Wpcs

lemma head_append (a b : String) (c : Char) (h : a.data.head? = some c) :
    (a ++ b).data.head? = some c := by
  rw [String.data_append]
  cases ha : a.data with
  | nil => rw [ha] at h; cases h
  | cons x t =>
      rw [ha] at h
      simp only [List.head?_cons, Option.some.injEq] at h
      subst h
      simp

lemma ne_of_summary_head {a b : WpcsCheckResult} {c₁ c₂ : Char}
    (ha : a.summary.data.head? = some c₁) (hb : b.summary.data.head? = some c₂)
    (hc : c₁ ≠ c₂) : a ≠ b := by
  intro h
  rw [h, hb] at ha
  exact hc (Option.some.inj ha).symm

lemma formatSummary_head (t : PhpcsTotals) (n : Nat) :
    (formatSummary t n).data.head? = some 'F' := by
  simp only [formatSummary]
  split <;> split <;>
    first
      | exact head_append _ _ _ (head_append _ _ _ (head_append _ _ _ rfl))
      | exact head_append _ _ _ (head_append _ _ _ rfl)
      | exact head_append _ _ _ rfl

lemma fix_shape (env : FixEnv) (t : String) :
    ((fix env t).success = true ∧ (fix env t).fixed = false)
    ∨ ((fix env t).success = false ∧ (fix env t).fixed = false)
    ∨ ((fix env t).success = true ∧ (fix env t).fixed = true) := by
  simp only [fix]
  by_cases hb : (check env.before).success = true
  · rw [if_pos hb]
    exact Or.inl ⟨rfl, rfl⟩
  · rw [if_neg hb]
    split
    · exact Or.inr (Or.inl ⟨rfl, rfl⟩)
    · exact Or.inr (Or.inr ⟨rfl, rfl⟩)

lemma fixed_imp_success (env : FixEnv) (t : String)
    (h : (fix env t).fixed = true) : (fix env t).success = true := by
  rcases fix_shape env t with ⟨hs, hf⟩ | ⟨hs, hf⟩ | ⟨hs, hf⟩
  · exact hs
  · rw [hf] at h; cases h
  · exact hs

lemma fixAndCheck_ok {renv : RunEnv} {files : List String} {out : FixAndCheckOutcome}
    (h : fixAndCheck renv files = Except.ok out) :
    checkFiles renv.batch files = Except.ok out.checkResult
    ∧ out.fixedFiles = fixPass renv.fenv files
    ∧ out.reStageCommand = (if out.fixedFiles.length > 0
        then some ("git add " ++ quoteJoin out.fixedFiles) else none) := by
  simp only [fixAndCheck] at h
  cases hc : checkFiles renv.batch files with
  | error e => rw [hc] at h; cases h
  | ok cr =>
      rw [hc] at h
      simp only [Except.ok.injEq] at h
      subst h
      exact ⟨rfl, rfl, rfl⟩

lemma mem_fixPass {f : String} :
    ∀ (fenv : Nat → FixEnv) (files : List String),
      f ∈ fixPass fenv files →
      ∃ i, files.get? i = some f ∧ (fix (fenv i) f).fixed = true := by
  intro fenv files
  induction files generalizing fenv with
  | nil => intro h; simp [fixPass] at h
  | cons g rest ih =>
      intro h
      simp only [fixPass] at h
      by_cases hg : (fix (fenv 0) g).fixed
      · rw [if_pos hg] at h
        rcases List.mem_cons.mp h with h1 | h2
        · subst h1; exact ⟨0, rfl, hg⟩
        · obtain ⟨i, hi, hf⟩ := ih (fun j => fenv (j + 1)) h2
          exact ⟨i + 1, hi, hf⟩
      · rw [if_neg hg] at h
        obtain ⟨i, hi, hf⟩ := ih (fun j => fenv (j + 1)) h
        exact ⟨i + 1, hi, hf⟩

lemma fixPass_mem_of_fixed :
    ∀ (fenv : Nat → FixEnv) (files : List String) (i : Nat) (f : String),
      files.get? i = some f → (fix (fenv i) f).fixed = true →
      f ∈ fixPass fenv files := by
  intro fenv files
  induction files generalizing fenv with
  | nil => intro i f h; cases h
  | cons g rest ih =>
      intro i f hget hfix
      cases i with
      | zero =>
          simp only [List.get?] at hget
          obtain rfl := Option.some.inj hget
          simp [fixPass, hfix]
      | succ i =>
          have hmem := ih (fun j => fenv (j + 1)) i f hget hfix
          simp only [fixPass]
          split
          · exact List.mem_cons_of_mem _ hmem
          · exact hmem

lemma fixPass_append :
    ∀ (fenv : Nat → FixEnv) (xs ys : List String),
      fixPass fenv (xs ++ ys)
        = fixPass fenv xs ++ fixPass (fun j => fenv (j + xs.length)) ys := by
  intro fenv xs
  induction xs generalizing fenv with
  | nil => intro ys; rfl
  | cons x rest ih =>
      intro ys
      rw [List.cons_append]
      show (if (fix (fenv 0) x).fixed = true
            then x :: fixPass (fun j => fenv (j + 1)) (rest ++ ys)
            else fixPass (fun j => fenv (j + 1)) (rest ++ ys))
          = (if (fix (fenv 0) x).fixed = true
             then x :: fixPass (fun j => fenv (j + 1)) rest
             else fixPass (fun j => fenv (j + 1)) rest)
            ++ fixPass (fun j => fenv (j + (rest.length + 1))) ys
      rw [ih (fun j => fenv (j + 1)) ys]
      by_cases h : (fix (fenv 0) x).fixed = true
      · rw [if_pos h, if_pos h]; rfl
      · rw [if_neg h, if_neg h]; rfl

end Wpcs

namespace Wpcs

/-- Claim C3: every result of `check` and every successfully returned result of
`checkFiles` has `canCommit = true` exactly when `totalErrors = 0`, over the
clean branch, the parsed-report branch and the error branch alike; the value of
`totalWarnings` plays no role. -/
theorem c3_canCommit_iff_no_errors :
    (∀ x : PhpcsExec, (check x).canCommit = true ↔ (check x).totalErrors = 0)
    ∧ (∀ (x : PhpcsExec) (files : List String) (r : WpcsCheckResult),
        checkFiles x files = Except.ok r → (r.canCommit = true ↔ r.totalErrors = 0)) := by
  constructor
  · intro x
    cases x with
    | clean => simp [check]
    | report pr => simp [check]
    | noOutput m => simp [check]
    | badOutput m => simp [check]
  · intro x files r h
    by_cases hf : files.length = 0
    · rw [checkFiles.eq_def, if_pos hf] at h
      simp only [Except.ok.injEq] at h
      subst h
      simp
    · rw [checkFiles.eq_def, if_neg hf] at h
      cases x with
      | clean =>
          simp only [Except.ok.injEq] at h
          subst h; simp
      | report pr =>
          simp only [Except.ok.injEq] at h
          subst h; simp
      | noOutput m =>
          simp only [Except.ok.injEq] at h
          subst h; simp
      | badOutput m => cases h

/-- Witness for C3 at concrete inputs: the synthetic invocation-failure result
of `check` and a `checkFiles` result over one file. -/
theorem c3_witness :
    ((check (PhpcsExec.noOutput "boom")).canCommit = true
      ↔ (check (PhpcsExec.noOutput "boom")).totalErrors = 0)
    ∧ ((blockedCheckResult.canCommit = true) ↔ blockedCheckResult.totalErrors = 0) := by
  refine ⟨c3_canCommit_iff_no_errors.1 (PhpcsExec.noOutput "boom"), ?_⟩
  exact c3_canCommit_iff_no_errors.2 (PhpcsExec.report unfixableReport) ["a.php"]
    blockedCheckResult rfl

/-- Claim C5: `fixAndCheck` returns a re-stage command exactly when the list of
fixed files is non-empty. -/
theorem c5_restage_iff_fixed (renv : RunEnv) (files : List String)
    (out : FixAndCheckOutcome) (h : fixAndCheck renv files = Except.ok out) :
    out.reStageCommand.isSome = true ↔ out.fixedFiles ≠ [] := by
  obtain ⟨-, -, hcmd⟩ := fixAndCheck_ok h
  rw [hcmd]
  by_cases hp : out.fixedFiles.length > 0
  · simp only [if_pos hp, Option.isSome_some]
    simp only [true_iff]
    exact List.ne_nil_of_length_pos hp
  · have hempty : out.fixedFiles = [] :=
      List.length_eq_zero.mp (Nat.eq_zero_of_not_pos hp)
    simp [hp, hempty]

/-- Witness for C5 at a concrete input with one fixed file. -/
theorem c5_witness :
    aOut.reStageCommand.isSome = true ↔ aOut.fixedFiles ≠ [] :=
  c5_restage_iff_fixed unchangedRunEnv ["a.php"] aOut rfl

/-- Claim C6: on the empty file list `checkFiles` returns the trivial success
(`success`, `canCommit`, zero totals, empty files list) for every possible
external-tool outcome, i.e. without consulting the external analyzer at all. -/
theorem c6_empty_list_trivial_success :
    ∀ x : PhpcsExec,
      checkFiles x []
        = Except.ok
            { success := true, canCommit := true, totalErrors := 0, totalWarnings := 0,
              fixableCount := 0, files := [], summary := "No PHP files to check." } :=
  fun _ => rfl

/-- Claim C7: when the pre-check of `fix` reports zero findings (the successful
zero-finding result), `fix` returns immediately with `fixed = false` and the
pre-check result as `remainingIssues`, and its output does not depend on the
phpcbf outcome or the post-check outcome — the fixer is never consulted. -/
theorem c7_clean_file_skips_fixer
    (b : PhpcsExec) (c c' : CbfExec) (a a' : PhpcsExec) (cb ca cb' ca' t : String)
    (h : (check b).success = true) :
    fix { before := b, cbf := c, after := a, contentBefore := cb, contentAfter := ca } t
      = { success := true, fixed := false, file := t, diff := none,
          remainingIssues := some (check b) }
    ∧ fix { before := b, cbf := c, after := a, contentBefore := cb, contentAfter := ca } t
      = fix { before := b, cbf := c', after := a', contentBefore := cb', contentAfter := ca' } t := by
  constructor
  · simp only [fix, h, if_pos]
  · simp only [fix, h, if_pos]

/-- Witness for C7: a clean pre-check with two different fixer/post-check
environments. -/
theorem c7_witness :
    fix { before := PhpcsExec.clean, cbf := CbfExec.ok, after := PhpcsExec.clean,
          contentBefore := "<?php a();", contentAfter := "<?php a();" } "a.php"
      = { success := true, fixed := false, file := "a.php", diff := none,
          remainingIssues := some (check PhpcsExec.clean) }
    ∧ fix { before := PhpcsExec.clean, cbf := CbfExec.ok, after := PhpcsExec.clean,
            contentBefore := "<?php a();", contentAfter := "<?php a();" } "a.php"
      = fix { before := PhpcsExec.clean, cbf := CbfExec.err (some 2) "crash",
              after := PhpcsExec.report unfixableReport,
              contentBefore := "<?php a();", contentAfter := "<?php b();" } "a.php" :=
  c7_clean_file_skips_fixer PhpcsExec.clean CbfExec.ok (CbfExec.err (some 2) "crash")
    PhpcsExec.clean (PhpcsExec.report unfixableReport)
    "<?php a();" "<?php a();" "<?php a();" "<?php b();" "a.php" rfl

end Wpcs

namespace Wpcs

/-- Claim C10: a `fix` result with `fixed = true` always has `success = true`,
and every entry of `fixAndCheck`'s `fixedFiles` stems from a loop iteration
whose `fix` result had `fixed = true` (hence `success = true`); the re-stage
command is generated from `fixedFiles` alone. -/
theorem c10_fixed_implies_success :
    (∀ (env : FixEnv) (t : String), (fix env t).fixed = true → (fix env t).success = true)
    ∧ (∀ (renv : RunEnv) (files : List String) (out : FixAndCheckOutcome) (f : String),
        fixAndCheck renv files = Except.ok out → f ∈ out.fixedFiles →
        ∃ i, files.get? i = some f ∧ (fix (renv.fenv i) f).fixed = true
          ∧ (fix (renv.fenv i) f).success = true)
    ∧ (∀ (renv : RunEnv) (files : List String) (out : FixAndCheckOutcome),
        fixAndCheck renv files = Except.ok out →
        out.reStageCommand = (if out.fixedFiles.length > 0
          then some ("git add " ++ quoteJoin out.fixedFiles) else none)) := by
  refine ⟨fixed_imp_success, ?_, ?_⟩
  · intro renv files out f hout hmem
    obtain ⟨-, hff, -⟩ := fixAndCheck_ok hout
    rw [hff] at hmem
    obtain ⟨i, hi, hfx⟩ := mem_fixPass renv.fenv files hmem
    exact ⟨i, hi, hfx, fixed_imp_success _ _ hfx⟩
  · intro renv files out hout
    exact (fixAndCheck_ok hout).2.2

/-- Witness for C10 at a concrete run with two loop iterations. -/
theorem c10_witness :
    (fix unchangedFixEnv "a.php").success = true
    ∧ (∃ i, (["a.php", "a.php"].get? i = some "a.php")
        ∧ (fix (unchangedRunEnv.fenv i) "a.php").fixed = true
        ∧ (fix (unchangedRunEnv.fenv i) "a.php").success = true)
    ∧ dupOut.reStageCommand = (if dupOut.fixedFiles.length > 0
        then some ("git add " ++ quoteJoin dupOut.fixedFiles) else none) := by
  refine ⟨c10_fixed_implies_success.1 unchangedFixEnv "a.php" rfl, ?_, ?_⟩
  · exact c10_fixed_implies_success.2.1 unchangedRunEnv ["a.php", "a.php"] dupOut "a.php"
      rfl (by simp [dupOut])
  · exact c10_fixed_implies_success.2.2 unchangedRunEnv ["a.php", "a.php"] dupOut rfl

/-- Counterexample to claim C9: the claim states that a path occurring twice in
the candidate list is processed only once and that `fixedFiles` contains no
duplicate entries.  In the run below, `"a.php"` occurs twice in the candidate
list, both fix invocations report `fixed = true` (its one finding is not
auto-fixable, phpcbf exits 0 both times), and `fixedFiles` is
`["a.php", "a.php"]` — a duplicated entry, so the fixer was invoked for each
occurrence and no collapse by path equality happened. -/
theorem c9_counterexample :
    (fixAndCheck unchangedRunEnv ["a.php", "a.php"]).toOption.map
        FixAndCheckOutcome.fixedFiles = some ["a.php", "a.php"]
    ∧ ¬ (["a.php", "a.php"] : List String).Nodup := by
  exact ⟨rfl, by decide⟩

/-- Claim C9 amended: `fixAndCheck` does not collapse duplicate paths — each
occurrence of a path in the candidate list is processed by its own `fix`
invocation, and a path whose fix invocations both report `fixed = true`
appears in `fixedFiles` once per occurrence. -/
theorem c9_amended_duplicates_kept (renv : RunEnv) (f : String)
    (h0 : (fix (renv.fenv 0) f).fixed = true)
    (h1 : (fix (renv.fenv 1) f).fixed = true)
    (out : FixAndCheckOutcome)
    (hout : fixAndCheck renv [f, f] = Except.ok out) :
    out.fixedFiles = [f, f] := by
  obtain ⟨-, hff, -⟩ := fixAndCheck_ok hout
  rw [hff]
  show (if (fix (renv.fenv 0) f).fixed = true
        then f :: (if (fix (renv.fenv 1) f).fixed = true
          then f :: fixPass (fun j => renv.fenv (j + 1 + 1)) []
          else fixPass (fun j => renv.fenv (j + 1 + 1)) [])
        else (if (fix (renv.fenv 1) f).fixed = true
          then f :: fixPass (fun j => renv.fenv (j + 1 + 1)) []
          else fixPass (fun j => renv.fenv (j + 1 + 1)) [])) = [f, f]
  rw [if_pos h0, if_pos h1]
  rfl

/-- Witness for the amended C9 at the concrete duplicated run. -/
theorem c9_amended_witness : dupOut.fixedFiles = ["a.php", "a.php"] :=
  c9_amended_duplicates_kept unchangedRunEnv "a.php" rfl rfl dupOut rfl

end Wpcs

namespace Wpcs

/-- Counterexample to claim C1: the claim states that for a file with at least
one pre-fix finding, the `fixed` flag is true iff the file content differs
before and after the fixer run (content-identity comparison as ground truth),
and that only actually-changed files are collected.  In the environment below
the pre-check reports one finding (`totalErrors = 1`), phpcbf exits 0 having
applied no fix, and the on-disk content is byte-identical before and after —
yet `fix` returns `fixed = true` and `fixAndCheck` collects the file into
`fixedFiles`.  No content-identity comparison exists in the implementation:
the flag is inferred from reaching the post-fix step. -/
theorem c1_counterexample :
    (check unchangedFixEnv.before).totalErrors = 1
    ∧ unchangedFixEnv.contentAfter = unchangedFixEnv.contentBefore
    ∧ (fix unchangedFixEnv "c.php").fixed = true
    ∧ (fixAndCheck unchangedRunEnv ["c.php"]).toOption.map
        FixAndCheckOutcome.fixedFiles = some ["c.php"] :=
  ⟨rfl, rfl, rfl, rfl⟩

/-- Claim C1 amended: whenever the pre-fix check reports findings (its
`success` flag is false) and the phpcbf invocation does not fail with exit
status 2, `fix` reports `fixed = true` and `success = true` regardless of
whether the file content changed (the content recorded in the environment is
unconstrained), and `fixAndCheck` collects every such file into `fixedFiles`. -/
theorem c1_amended_fixed_from_exit_path (env : FixEnv) (t : String)
    (h1 : (check env.before).success = false)
    (h2 : cbfFails env.cbf = false) :
    (fix env t).fixed = true ∧ (fix env t).success = true
    ∧ (∀ (renv : RunEnv) (files : List String) (i : Nat) (out : FixAndCheckOutcome),
        renv.fenv i = env → files.get? i = some t →
        fixAndCheck renv files = Except.ok out → t ∈ out.fixedFiles) := by
  have hfix : (fix env t).fixed = true := by
    simp only [fix, h1, Bool.false_eq_true, if_false]
    split
    · rename_i m heq
      rw [heq] at h2
      cases h2
    · rfl
  refine ⟨hfix, fixed_imp_success env t hfix, ?_⟩
  intro renv files i out henv hget hout
  obtain ⟨-, hff, -⟩ := fixAndCheck_ok hout
  rw [hff]
  exact fixPass_mem_of_fixed renv.fenv files i t hget (by rw [henv]; exact hfix)

/-- Witness for the amended C1: the unchanged-content environment satisfies
both hypotheses and the file is collected. -/
theorem c1_amended_witness :
    (fix unchangedFixEnv "c.php").success = true
    ∧ "c.php" ∈ singleOut.fixedFiles := by
  have h := c1_amended_fixed_from_exit_path unchangedFixEnv "c.php" rfl rfl
  exact ⟨h.2.1, h.2.2 unchangedRunEnv ["c.php"] 0 singleOut rfl rfl rfl⟩

/-- Claim C4: the verify check of `fixAndCheck` is the single `checkFiles`
call over the entire original candidate list, and a failed `fix` on one file
(`success = false`) neither aborts the loop for the remaining files (their
contributions to `fixedFiles` are kept, with their own per-iteration
environments) nor removes the failed file from the list given to the verify
check. -/
theorem c4_verify_over_full_list (renv : RunEnv) (xs : List String) (f : String)
    (ys : List String) (out : FixAndCheckOutcome)
    (hfail : (fix (renv.fenv xs.length) f).success = false)
    (hout : fixAndCheck renv (xs ++ f :: ys) = Except.ok out) :
    checkFiles renv.batch (xs ++ f :: ys) = Except.ok out.checkResult
    ∧ out.fixedFiles
        = fixPass renv.fenv xs ++ fixPass (fun j => renv.fenv (j + (xs.length + 1))) ys := by
  obtain ⟨hc, hff, -⟩ := fixAndCheck_ok hout
  refine ⟨hc, ?_⟩
  rw [hff, fixPass_append renv.fenv xs (f :: ys)]
  have hfix : (fix ((fun j => renv.fenv (j + xs.length)) 0) f).fixed = false := by
    simp only [Nat.zero_add]
    cases hb : (fix (renv.fenv xs.length) f).fixed
    · rfl
    · rw [fixed_imp_success (renv.fenv xs.length) f hb] at hfail
      cases hfail
  show fixPass renv.fenv xs
      ++ (if (fix ((fun j => renv.fenv (j + xs.length)) 0) f).fixed = true
          then f :: fixPass (fun j => renv.fenv (j + 1 + xs.length)) ys
          else fixPass (fun j => renv.fenv (j + 1 + xs.length)) ys)
      = fixPass renv.fenv xs ++ fixPass (fun j => renv.fenv (j + (xs.length + 1))) ys
  rw [hfix]
  have harith : (fun j => renv.fenv (j + 1 + xs.length))
      = (fun j => renv.fenv (j + (xs.length + 1))) := by
    funext j
    congr 1
    omega
  rw [if_neg (by simp), harith]

/-- Witness for C4: the first file's fixer invocation fails with phpcbf exit
status 2, the second file is still processed, and the verify check covers both
files. -/
theorem c4_witness :
    checkFiles mixedRunEnv.batch ([] ++ "b.php" :: ["d.php"]) = Except.ok mixedOut.checkResult
    ∧ mixedOut.fixedFiles
        = fixPass mixedRunEnv.fenv []
          ++ fixPass (fun j => mixedRunEnv.fenv (j + (List.length ([] : List String) + 1)))
              ["d.php"] :=
  c4_verify_over_full_list mixedRunEnv [] "b.php" ["d.php"] mixedOut rfl rfl

end Wpcs

namespace Wpcs

/-- Claim C2: when the analyzer exits non-zero with no parsable structured
output (empty stdout, or stdout that the JSON parser rejects), `check` and
`checkFiles` surface a result distinct from a zero-violation success
(`success` and `canCommit` are false) and distinct, as a value, from the
result built from any parsed analyzer report and from the clean-exit result
(their summaries begin with different markers); `checkFiles` even throws on
unparsable non-empty output; and a verify-pass invocation failure makes the
pre-commit call an error outcome (`isError = true`), never a trusted pass. -/
theorem c2_invocation_failure_surfaced
    (m : String) (files : List String) (hne : files ≠ [])
    (env : ServerEnv) (wd : Option String) (autoStage : Bool)
    (hp : env.phpcs.installed = true) (hw : env.wpcs.installed = true)
    (hs : env.staged ≠ [])
    (hfail : env.run.batch = PhpcsExec.noOutput m ∨ env.run.batch = PhpcsExec.badOutput m) :
    ((check (PhpcsExec.noOutput m)).success = false
      ∧ (check (PhpcsExec.noOutput m)).canCommit = false
      ∧ (∀ pr : PhpcsResult, check (PhpcsExec.noOutput m) ≠ check (PhpcsExec.report pr))
      ∧ check (PhpcsExec.noOutput m) ≠ check PhpcsExec.clean)
    ∧ ((check (PhpcsExec.badOutput m)).success = false
      ∧ (check (PhpcsExec.badOutput m)).canCommit = false
      ∧ (∀ pr : PhpcsResult, check (PhpcsExec.badOutput m) ≠ check (PhpcsExec.report pr))
      ∧ check (PhpcsExec.badOutput m) ≠ check PhpcsExec.clean)
    ∧ (∃ r, checkFiles (PhpcsExec.noOutput m) files = Except.ok r
      ∧ r.success = false ∧ r.canCommit = false
      ∧ (∀ pr : PhpcsResult, Except.ok r ≠ checkFiles (PhpcsExec.report pr) files)
      ∧ Except.ok r ≠ checkFiles PhpcsExec.clean files)
    ∧ checkFiles (PhpcsExec.badOutput m) files = Except.error m
    ∧ (callPreCommit env wd autoStage).isError = true := by
  have hlen : ¬ files.length = 0 := fun hh => hne (List.length_eq_zero.mp hh)
  have hE1 : (check (PhpcsExec.noOutput m)).summary.data.head? = some 'E' :=
    head_append "Error running phpcs: " ("phpcs failed: " ++ m) 'E' rfl
  have hE2 : (check (PhpcsExec.badOutput m)).summary.data.head? = some 'E' :=
    head_append "Error running phpcs: " m 'E' rfl
  have hRep : ∀ pr : PhpcsResult,
      (check (PhpcsExec.report pr)).summary.data.head? = some 'F' :=
    fun pr => formatSummary_head pr.totals _
  have hClean : (check PhpcsExec.clean).summary.data.head? = some 'N' := rfl
  refine ⟨⟨rfl, rfl, fun pr => ne_of_summary_head hE1 (hRep pr) (by decide),
          ne_of_summary_head hE1 hClean (by decide)⟩,
         ⟨rfl, rfl, fun pr => ne_of_summary_head hE2 (hRep pr) (by decide),
          ne_of_summary_head hE2 hClean (by decide)⟩,
         ?_, ?_, ?_⟩
  · refine ⟨{ success := false, canCommit := false, totalErrors := 1, totalWarnings := 0,
              fixableCount := 0, files := [], summary := "phpcs failed: " ++ m },
            ?_, rfl, rfl, ?_, ?_⟩
    · rw [checkFiles.eq_def, if_neg hlen]
    · intro pr h
      rw [checkFiles.eq_def, if_neg hlen] at h
      simp only [Except.ok.injEq] at h
      exact ne_of_summary_head (head_append "phpcs failed: " m 'p' rfl)
        (formatSummary_head pr.totals _) (by decide) h
    · intro h
      rw [checkFiles.eq_def, if_neg hlen] at h
      simp only [Except.ok.injEq] at h
      exact ne_of_summary_head (head_append "phpcs failed: " m 'p' rfl)
        (head_append "All " (toString files.length
          ++ " PHP file(s) pass WordPress coding standards.") 'A' rfl) (by decide) h
  · rw [checkFiles.eq_def, if_neg hlen]
  · have hsl : ¬ env.staged.length = 0 := fun hh => hs (List.length_eq_zero.mp hh)
    have hpaths : ¬ (env.staged.map fun sf => sf.path).length = 0 := by
      rw [List.length_map]; exact hsl
    rcases hfail with hf | hf
    · cases hfc : fixAndCheck env.run (env.staged.map fun sf => sf.path) with
      | error e =>
          simp [callPreCommit, preCommitWorkflow, hp, hw, hsl, hfc, errorResult]
      | ok out =>
          have hcc : out.checkResult.canCommit = false := by
            obtain ⟨hc, -, -⟩ := fixAndCheck_ok hfc
            rw [hf, checkFiles.eq_def, if_neg hpaths] at hc
            simp only [Except.ok.injEq] at hc
            rw [← hc]
          simp [callPreCommit, preCommitWorkflow, hp, hw, hsl, hfc, hcc]
    · have hfc : fixAndCheck env.run (env.staged.map fun sf => sf.path)
          = Except.error m := by
        simp only [fixAndCheck]
        rw [hf, checkFiles.eq_def, if_neg hpaths]
      simp [callPreCommit, preCommitWorkflow, hp, hw, hsl, hfc, errorResult]

/-- Witness for C2 at a concrete server environment whose verify-pass phpcs
invocation exits without output. -/
theorem c2_witness :
    checkFiles (PhpcsExec.badOutput "boom") ["a.php"] = Except.error "boom"
    ∧ (callPreCommit noOutputServerEnv none true).isError = true := by
  have h := c2_invocation_failure_surfaced "boom" ["a.php"] (by decide)
    noOutputServerEnv none true rfl rfl (by decide) (Or.inl rfl)
  exact ⟨h.2.2.2.1, h.2.2.2.2⟩

end Wpcs

namespace Wpcs

/-- Claim C8: a failing re-stage command changes nothing about the commit
decision — for both outcomes of the re-stage execution the pre-commit workflow
returns an outcome whose `isError` flag equals `!checkResult.canCommit`
(hence the PASSED/BLOCKED decision is dictated by the final check result
alone), and the failed re-stage surfaces only as a `Warning:` line inside the
outcome text. -/
theorem c8_restage_failure_only_warns
    (env : ServerEnv) (wd : Option String)
    (hp : env.phpcs.installed = true) (hw : env.wpcs.installed = true)
    (hs : env.staged ≠ [])
    (out : FixAndCheckOutcome)
    (hout : fixAndCheck env.run (env.staged.map fun sf => sf.path) = Except.ok out)
    (hfx : out.fixedFiles ≠ []) :
    ∃ r0 r1,
      preCommitWorkflow { env with restageOk := false } wd true = Except.ok r0
      ∧ preCommitWorkflow { env with restageOk := true } wd true = Except.ok r1
      ∧ r0.isError = r1.isError
      ∧ r0.isError = !out.checkResult.canCommit
      ∧ ∃ pre post,
          r0.text = pre ++ ("Warning: Could not re-stage files. Run manually:\n  " ++ post) := by
  have hsl : ¬ env.staged.length = 0 := fun hh => hs (List.length_eq_zero.mp hh)
  have hpos : out.fixedFiles.length > 0 := List.length_pos.mpr hfx
  have hcmd := (fixAndCheck_ok hout).2.2
  rw [if_pos hpos] at hcmd
  have key : ∀ b : Bool,
      preCommitWorkflow { env with restageOk := b } wd true
        = Except.ok
            { text := messageFixed out wd true b ++ messageStatus out.checkResult wd,
              isError := !out.checkResult.canCommit } := by
    intro b
    simp [preCommitWorkflow, hp, hw, hsl, hout]
  refine ⟨_, _, key false, key true, rfl, rfl, ?_⟩
  refine ⟨"AUTO-FIXED " ++ (toString out.fixedFiles.length ++ (" file(s):\n"
      ++ (fixedListText out.fixedFiles wd ++ "\n"))),
    ("git add " ++ quoteJoin out.fixedFiles) ++ ("\n\n" ++ messageStatus out.checkResult wd),
    ?_⟩
  show messageFixed out wd true false ++ messageStatus out.checkResult wd = _
  rw [messageFixed, if_pos hpos, hcmd]
  show "AUTO-FIXED " ++ (toString out.fixedFiles.length ++ (" file(s):\n"
      ++ (fixedListText out.fixedFiles wd ++ ("\n"
      ++ ("Warning: Could not re-stage files. Run manually:\n  "
        ++ ("git add " ++ quoteJoin out.fixedFiles ++ "\n\n"))))))
      ++ messageStatus out.checkResult wd = _
  simp only [String.append_assoc]

/-- Witness for C8 at a concrete staged run whose single file gets fixed. -/
theorem c8_witness :
    ∃ r0 r1,
      preCommitWorkflow { stagedServerEnv with restageOk := false } none true = Except.ok r0
      ∧ preCommitWorkflow { stagedServerEnv with restageOk := true } none true = Except.ok r1
      ∧ r0.isError = r1.isError
      ∧ r0.isError = !aOut.checkResult.canCommit
      ∧ ∃ pre post,
          r0.text = pre ++ ("Warning: Could not re-stage files. Run manually:\n  " ++ post) :=
  c8_restage_failure_only_warns stagedServerEnv none rfl rfl (by decide) aOut rfl (by decide)

end Wpcs
